import Mathlib

/-!
# Verification of the study-dashboard completion predictor

Shallow embedding of `src/python/api.py`: a FastAPI endpoint
`predict_completion` that fits a linear trend to a learner's cumulative
study hours and projects a completion date.

Conventions of the embedding:
* Python `float` arithmetic is modelled exactly over `ℚ`.
* `datetime` calendar dates are modelled by their proleptic-Gregorian
  ordinal (`datetime.toordinal`: day 1 = 0001-01-01), as an integer.
* `datetime.strptime(s, "%Y-%m-%d")` is modelled by `parseDate`, which
  fails (`none`) exactly when Python raises `ValueError`: CPython's
  directive regexes demand a 4-digit year, a 1–2-digit month, and a
  1–2-digit or space-padded day, and the `datetime` constructor then
  enforces the calendar ranges.
* `start_date + timedelta(days=...)` raises `OverflowError` when the
  result leaves datetime's range (years 1–9999); the model makes this
  explicit via the ordinal bound `maxOrdinal`.  `strftime("%Y-%m-%d")`
  prints the year unpadded (glibc `%Y`), month and day zero-padded.
* `sklearn.linear_model.LinearRegression().fit` on a single feature with
  an intercept is modelled by `sklearnFit` (see its doc comment).
* The FastAPI transport is modelled by `handle`: a returned dict becomes
  a 200 response with the business outcome; an exception escaping the
  handler (ValueError, OverflowError) becomes a 500 server error
  (FastAPI's behaviour for unhandled exceptions).  Pydantic's 422
  validation error can only arise for ill-typed request bodies, which
  are outside this typed embedding, so the `clientError` response is
  never produced by `handle`.
-/

/-! ## Calendar dates (model of `datetime.date` / `strptime` / `strftime`) -/

/-- Gregorian leap-year rule, as used by `datetime`. -/
def isLeap (y : ℕ) : Bool :=
  (y % 4 == 0 && y % 100 != 0) || y % 400 == 0

/-- Number of days in month `m` (1..12) of year `y`. -/
def monthLen (y m : ℕ) : ℕ :=
  if m = 2 then (if isLeap y then 29 else 28)
  else if m = 4 ∨ m = 6 ∨ m = 9 ∨ m = 11 then 30
  else 31

/-- Days in year `y` strictly before month `m` (1..12). -/
def daysBeforeMonth (y m : ℕ) : ℕ :=
  (List.range (m - 1)).foldl (fun acc i => acc + monthLen y (i + 1)) 0

/-- Days strictly before January 1 of year `y` (y ≥ 1), counted from
ordinal day 0; matches CPython's `_days_before_year`. -/
def daysBeforeYear (y : ℕ) : ℕ :=
  let p := y - 1
  365 * p + p / 4 + p / 400 - p / 100

/-- `datetime.date(y, m, d).toordinal()` for a valid (y, m, d). -/
def toOrdinal (y m d : ℕ) : ℤ :=
  ((daysBeforeYear y + daysBeforeMonth y m + d : ℕ) : ℤ)

/-- Numeric value of a list of decimal digit characters. -/
def digitsVal (l : List Char) : ℕ :=
  l.foldl (fun acc c => 10 * acc + (c.toNat - 48)) 0

/-- Split a character list on the character `'-'` (model of the literal
separators in the `"%Y-%m-%d"` format). -/
def splitDash : List Char → List (List Char)
  | [] => [[]]
  | c :: t =>
    if c = '-' then [] :: splitDash t
    else
      match splitDash t with
      | [] => [[c]]
      | g :: gs => (c :: g) :: gs

/-- The day field of CPython's `_strptime`: the `%d` directive matches
the regex `3[01]|[12]\d|0[1-9]|[1-9]| [1-9]` against the whole remaining
field, i.e. one or two digits, or a space followed by a non-zero digit
(space-padded day).  Returns the numeric value; two-digit values ≥ 32
and a bare `0` are returned as numbers and rejected by the calendar
range check in `parseDate`, exactly where CPython's regex leaves
unconverted data or its constructor raises. -/
def dayField (l : List Char) : Option ℕ :=
  match l with
  | [c] => if c.isDigit then some (c.toNat - 48) else none
  | [c1, c2] =>
    if c1 = ' ' then
      if c2.isDigit ∧ c2 ≠ '0' then some (c2.toNat - 48) else none
    else if c1.isDigit ∧ c2.isDigit then some (digitsVal [c1, c2])
    else none
  | _ => none

/-- Model of `datetime.strptime(s, "%Y-%m-%d")`, returning the ordinal of
the parsed date, or `none` where Python raises `ValueError`.  CPython's
`_strptime` matches `%Y` as exactly four digits, `%m` as one or two
digits, and `%d` as one or two digits or a space-padded single digit
(see `dayField`); the `datetime` constructor then rejects year 0, months
outside 1–12 and days beyond the month's length.  Values such as month
13 or day 32, which the directive regexes would not consume in full,
are likewise rejected by the range check, so the model agrees with
`strptime` on acceptance. -/
def parseDate (s : String) : Option ℤ :=
  match splitDash s.data with
  | [ys, ms, ds] =>
    if ys.length = 4 ∧ ys.all Char.isDigit ∧
       ms ≠ [] ∧ ms.length ≤ 2 ∧ ms.all Char.isDigit then
      match dayField ds with
      | some d =>
        let y := digitsVal ys
        let m := digitsVal ms
        if 1 ≤ y ∧ 1 ≤ m ∧ m ≤ 12 ∧ 1 ≤ d ∧ d ≤ monthLen y m then
          some (toOrdinal y m d)
        else none
      | none => none
    else none
  | _ => none

/-- Month and day within year `y` for 0-based day-of-year `doy`
(0 ≤ doy < length of year). -/
def monthOf (y doy : ℕ) : ℕ × ℕ :=
  (List.range 12).foldl
    (fun acc i =>
      let m := i + 1
      if daysBeforeMonth y m ≤ doy ∧ doy < daysBeforeMonth y m + monthLen y m then
        (m, doy - daysBeforeMonth y m + 1)
      else acc)
    (1, 1)

/-- Inverse of `toOrdinal` (CPython's `_ord2ymd`): year, month, day of a
positive ordinal. -/
def fromOrdinal (n : ℕ) : ℕ × ℕ × ℕ :=
  let n0 := n - 1
  let n400 := n0 / 146097
  let r400 := n0 % 146097
  let n100 := r400 / 36524
  let r100 := r400 % 36524
  let n4 := r100 / 1461
  let r4 := r100 % 1461
  let n1 := r4 / 365
  let r1 := r4 % 365
  let y := 400 * n400 + 100 * n100 + 4 * n4 + n1 + 1
  if n1 = 4 ∨ n100 = 4 then (y - 1, 12, 31)
  else
    let md := monthOf y r1
    (y, md.1, md.2)

/-- Decimal digits of `n`, zero-padded on the left to width `w`. -/
def padNum (w n : ℕ) : String :=
  let s := toString n
  let l := s.length
  String.mk (List.replicate (w - l) '0') ++ s

/-- Model of `d.strftime("%Y-%m-%d")` for the date with ordinal `n`
(only reached for ordinals inside datetime's range, years 1–9999):
glibc's `%Y` prints the year without padding (year 999 gives "999"),
while `%m` and `%d` are zero-padded to two digits. -/
def formatOrdinal (n : ℤ) : String :=
  let ymd := fromOrdinal n.toNat
  toString ymd.1 ++ "-" ++ padNum 2 ymd.2.1 ++ "-" ++ padNum 2 ymd.2.2

/-! ## Numeric helpers -/

/-- Arithmetic mean of a list of rationals (0 for the empty list, by the
`x / 0 = 0` convention; only ever used on non-empty lists). -/
def mean (l : List ℚ) : ℚ := l.sum / l.length

/-- Running cumulative sums starting from `acc` (model of `np.cumsum`
applied after adding `acc`). -/
def cumsumFrom (acc : ℚ) : List ℚ → List ℚ
  | [] => []
  | h :: t => (acc + h) :: cumsumFrom (acc + h) t

/-- Model of `np.cumsum`: `(cumsum l)[i] = l[0] + ... + l[i]`. -/
def cumsum (l : List ℚ) : List ℚ := cumsumFrom 0 l

/-- Python's `min` over a non-empty list (0 for the empty list, which the
code never reaches: the length-≥-3 guard comes first). -/
def listMin : List ℤ → ℤ
  | [] => 0
  | h :: t => t.foldl min h

/-- Centred sum of squares `Σ (xᵢ - mean x)²`. -/
def sxx (xs : List ℚ) : ℚ :=
  (xs.map (fun x => (x - mean xs) ^ 2)).sum

/-- Centred sum of products `Σ (xᵢ - mean x) * (yᵢ - mean y)`. -/
def sxy (xs ys : List ℚ) : ℚ :=
  (List.zipWith (fun x y => (x - mean xs) * (y - mean ys)) xs ys).sum

/-- Model of `sklearn.linear_model.LinearRegression().fit` for a single
feature with the default intercept: the library centres the data and
takes the least-squares solution of the centred system, which for one
feature is `slope = Σ(x-x̄)(y-ȳ) / Σ(x-x̄)²` and
`intercept = ȳ - slope * x̄`; when the centred x column is identically
zero (`Σ(x-x̄)² = 0`) the minimum-norm least-squares solution is
`slope = 0`.  Returns `(coef_[0], intercept_)`. -/
def sklearnFit (xs ys : List ℚ) : ℚ × ℚ :=
  let slope := if sxx xs = 0 then 0 else sxy xs ys / sxx xs
  (slope, mean ys - slope * mean xs)

/-- Model of Python's `int(f)` for a float `f`: truncation toward zero. -/
def pyInt (q : ℚ) : ℤ := q.num.tdiv q.den

/-- Round-half-to-even to the nearest integer (Python's `round` on an
exactly-representable value). -/
def roundHalfEven (q : ℚ) : ℤ :=
  if q - ⌊q⌋ = 1 / 2 then (if ⌊q⌋ % 2 = 0 then ⌊q⌋ else ⌊q⌋ + 1)
  else round q

/-- Model of Python's `round(f, 2)`: round-half-to-even at 2 decimals. -/
def round2 (q : ℚ) : ℚ := (roundHalfEven (q * 100) : ℚ) / 100

/-! ## Data model (`api.py` lines 21–28) -/

/-- `class StudySession(BaseModel): date: str; hours: float`.
Pydantic places no constraint on either field beyond its type: any
string and any float (negative included) validate. -/
structure StudySession where
  date : String
  hours : ℚ
deriving DecidableEq, Repr

/-- The three shapes of dict the endpoint can return. -/
inductive Outcome
  | insufficientData
  | stalled
  | success (predicted_date : String) (velocity_hours_per_day : ℚ)
deriving DecidableEq, Repr

/-- Result of running the Python function body: a returned dict, a
raised `ValueError` (from `strptime` on a malformed date, line 37), or a
raised `OverflowError` (from `start_date + timedelta(...)` on line 63
when the result falls outside datetime's supported range, years
1–9999; a `timedelta` whose day count exceeds ±999999999 raises the
same `OverflowError` and always lands outside that range too). -/
inductive PredictResult
  | ok (outcome : Outcome)
  | valueError
  | overflowError
deriving DecidableEq, Repr

/-- HTTP-level response classes of the FastAPI app. -/
inductive Response
  | ok (body : Outcome)
  | clientError
  | serverError
deriving DecidableEq, Repr

/-! ## The predictor (`predict_completion`, `api.py` lines 30–69) -/

/-- Dates of all sessions parsed in order; `none` if any `strptime`
call raises (the first failure aborts the list comprehension on
line 37). -/
def parseDates : List StudySession → Option (List ℤ)
  | [] => some []
  | s :: t =>
    match parseDate s.date, parseDates t with
    | some d, some ds => some (d :: ds)
    | _, _ => none

/-- `start_date = min(dates)` (line 38). -/
def startOf (dates : List ℤ) : ℤ := listMin dates

/-- `days_since_start` (line 39): whole-day differences from the minimum
date, one per session, in request order, as the regression feature. -/
def xsOf (dates : List ℤ) : List ℚ :=
  dates.map (fun d => ((d - listMin dates : ℤ) : ℚ))

/-- `cumulative_hours = np.cumsum(hours)` (lines 42–43), in request
order. -/
def ysOf (sessions : List StudySession) : List ℚ :=
  cumsum (sessions.map (fun s => s.hours))

/-- The fitted model of lines 46–47: `(coef_[0], intercept_)`. -/
def fitOf (sessions : List StudySession) (dates : List ℤ) : ℚ × ℚ :=
  sklearnFit (xsOf dates) (ysOf sessions)

/-- `velocity = model.coef_[0]` (line 55). -/
def velocityOf (sessions : List StudySession) (dates : List ℤ) : ℚ :=
  (fitOf sessions dates).1

/-- `current_total = cumulative_hours[-1]` (line 51). -/
def currentTotal (sessions : List StudySession) : ℚ :=
  (ysOf sessions).getLastD 0

/-- `target_total = current_total + data.remaining_hours` (line 52). -/
def targetTotal (sessions : List StudySession) (remaining_hours : ℚ) : ℚ :=
  currentTotal sessions + remaining_hours

/-- `days_needed = (target_total - model.intercept_) / velocity`
(line 60). -/
def daysNeeded (sessions : List StudySession) (dates : List ℤ)
    (remaining_hours : ℚ) : ℚ :=
  (targetTotal sessions remaining_hours - (fitOf sessions dates).2) /
    velocityOf sessions dates

/-- `datetime.max.toordinal()`: the ordinal of 9999-12-31, the last
date `datetime` supports (`datetime.min` is 0001-01-01, ordinal 1). -/
def maxOrdinal : ℤ := 3652059

/-- The body of `predict_completion` (lines 31–69), with a raised
`ValueError` made explicit as `PredictResult.valueError` and the
`OverflowError` of `start_date + timedelta(days=int(days_needed))`
(line 63, when the resulting ordinal leaves [1, maxOrdinal]) made
explicit as `PredictResult.overflowError`. -/
def predict_completion (sessions : List StudySession)
    (remaining_hours : ℚ) : PredictResult :=
  if sessions.length < 3 then .ok .insufficientData
  else
    match parseDates sessions with
    | none => .valueError
    | some dates =>
      if velocityOf sessions dates ≤ 0 then .ok .stalled
      else
        let finish :=
          startOf dates + pyInt (daysNeeded sessions dates remaining_hours)
        if finish < 1 ∨ maxOrdinal < finish then .overflowError
        else .ok (.success (formatOrdinal finish)
          (round2 (velocityOf sessions dates)))

/-- The transport shell around `predict_completion`: a returned dict is
a 200 response; an exception escaping the handler (ValueError or
OverflowError) is FastAPI's 500.  `Response.clientError` (pydantic's
422) is only produced for ill-typed bodies, which cannot arise for an
already-typed request. -/
def handle (sessions : List StudySession) (remaining_hours : ℚ) : Response :=
  match predict_completion sessions remaining_hours with
  | .ok o => .ok o
  | .valueError => .serverError
  | .overflowError => .serverError

/-! ## Closed-form OLS from the specification (for the refinement claim) -/

/-- Population covariance `mean(x*y) - mean(x)*mean(y)` of the spec's
closed form. -/
def specCov (xs ys : List ℚ) : ℚ :=
  mean (List.zipWith (fun x y => x * y) xs ys) - mean xs * mean ys

/-- Population variance `mean(x²) - mean(x)²` of the spec's closed
form. -/
def specVar (xs : List ℚ) : ℚ :=
  mean (xs.map (fun x => x ^ 2)) - mean xs ^ 2

/-- Modelled from the spec: the closed-form single-variable OLS solution
of §4.1 step 5, `slope = covariance(x,y) / variance(x)`,
`intercept = mean(y) - slope * mean(x)`. -/
def specOLS (xs ys : List ℚ) : ℚ × ℚ :=
  let slope := specCov xs ys / specVar xs
  (slope, mean ys - slope * mean xs)

/-! ## Helper lemmas -/

theorem parseDates_length {sessions : List StudySession} {dates : List ℤ}
    (h : parseDates sessions = some dates) : dates.length = sessions.length := by
  induction sessions generalizing dates with
  | nil =>
    simp only [parseDates, Option.some.injEq] at h
    simp [← h]
  | cons s t ih =>
    simp only [parseDates] at h
    cases hd : parseDate s.date with
    | none => rw [hd] at h; simp at h
    | some d =>
      rw [hd] at h
      cases ht : parseDates t with
      | none => rw [ht] at h; simp at h
      | some ds =>
        rw [ht] at h
        simp only [Option.some.injEq] at h
        rw [← h]
        simp [ih ht]

theorem cumsumFrom_length (acc : ℚ) (l : List ℚ) :
    (cumsumFrom acc l).length = l.length := by
  induction l generalizing acc with
  | nil => rfl
  | cons h t ih => simp [cumsumFrom, ih]

theorem sum_all_eq {l : List ℚ} {c : ℚ} (h : ∀ x ∈ l, x = c) :
    l.sum = l.length * c := by
  induction l with
  | nil => simp
  | cons a t ih =>
    simp only [List.mem_cons, forall_eq_or_imp] at h
    simp only [List.sum_cons, List.length_cons, ih h.2, h.1]
    push_cast
    ring

theorem mean_all_eq {l : List ℚ} {c : ℚ} (hne : l ≠ []) (h : ∀ x ∈ l, x = c) :
    mean l = c := by
  have hn : (l.length : ℚ) ≠ 0 := by
    simpa using hne
  rw [mean, sum_all_eq h, mul_comm, mul_div_assoc, div_self hn, mul_one]

theorem mean_all_zero {l : List ℚ} (h : ∀ x ∈ l, x = 0) : mean l = 0 := by
  rw [mean, List.sum_eq_zero h, zero_div]

theorem sxx_all_zero {xs : List ℚ} (h : ∀ x ∈ xs, x = 0) : sxx xs = 0 := by
  rw [sxx]
  apply List.sum_eq_zero
  intro z hz
  rw [List.mem_map] at hz
  obtain ⟨x, hx, rfl⟩ := hz
  rw [h x hx, mean_all_zero h]
  ring

theorem zipWith_center_sum_zero (a c : ℚ) :
    ∀ (xs ys : List ℚ), (∀ y ∈ ys, y = c) →
      (List.zipWith (fun x y => (x - a) * (y - c)) xs ys).sum = 0 := by
  intro xs
  induction xs with
  | nil => intro ys _; simp
  | cons x xs ih =>
    intro ys hy
    cases ys with
    | nil => simp
    | cons y ys =>
      simp only [List.mem_cons, forall_eq_or_imp] at hy
      simp only [List.zipWith_cons_cons, List.sum_cons, hy.1, ih ys hy.2,
        sub_self, mul_zero, add_zero]

theorem slope_of_sxy_zero {xs ys : List ℚ} (h : sxy xs ys = 0) :
    (sklearnFit xs ys).1 = 0 := by
  by_cases h0 : sxx xs = 0 <;> simp [sklearnFit, h0, h]

theorem cumsumFrom_all_eq :
    ∀ (l : List ℚ) (acc : ℚ), (∀ x ∈ l, 0 ≤ x) →
      List.Chain' (fun a b => b ≤ a) (cumsumFrom acc l) →
      ∀ y ∈ cumsumFrom acc l, y = acc + l.headD 0 := by
  intro l
  induction l with
  | nil => intro acc _ _ y hy; simp [cumsumFrom] at hy
  | cons h t ih =>
    intro acc hpos hch y hy
    cases t with
    | nil =>
      simp only [cumsumFrom, List.mem_singleton] at hy
      simp [hy]
    | cons h2 t2 =>
      have hch2 : List.Chain' (fun a b => b ≤ a)
          ((acc + h) :: (acc + h + h2) :: cumsumFrom (acc + h + h2) t2) := hch
      rw [List.chain'_cons] at hch2
      have hh2 : h2 = 0 := by
        have hnn : 0 ≤ h2 := hpos h2 (by simp)
        have hle : acc + h + h2 ≤ acc + h := hch2.1
        linarith
      simp only [cumsumFrom, List.mem_cons] at hy
      rcases hy with hy | hy
      · simp [hy]
      · have := ih (acc + h)
          (fun x hx => hpos x (List.mem_cons_of_mem _ hx)) hch2.2 y
        rw [show cumsumFrom (acc + h) (h2 :: t2) =
            (acc + h + h2) :: cumsumFrom (acc + h + h2) t2 from rfl] at this
        have hval := this (List.mem_cons.mpr hy)
        simp only [List.headD_cons] at hval ⊢
        rw [hval, hh2]
        ring

theorem foldl_min_all_eq :
    ∀ (l : List ℤ) (a c : ℤ), (∀ x ∈ l, x = c) → a = c → l.foldl min a = c := by
  intro l
  induction l with
  | nil => intro a c _ ha; simpa using ha
  | cons x t ih =>
    intro a c h ha
    simp only [List.mem_cons, forall_eq_or_imp] at h
    simp only [List.foldl_cons]
    exact ih _ _ h.2 (by rw [h.1, ha, min_self])

theorem listMin_all_eq {dates : List ℤ} {c : ℤ}
    (hne : dates ≠ []) (h : ∀ d ∈ dates, d = c) : listMin dates = c := by
  cases dates with
  | nil => exact absurd rfl hne
  | cons d t =>
    simp only [List.mem_cons, forall_eq_or_imp] at h
    exact foldl_min_all_eq t d c h.2 h.1

theorem sum_zipWith_center (a b : ℚ) :
    ∀ (xs ys : List ℚ), xs.length = ys.length →
      (List.zipWith (fun x y => (x - a) * (y - b)) xs ys).sum =
        (List.zipWith (fun x y => x * y) xs ys).sum - a * ys.sum - b * xs.sum +
          xs.length * (a * b) := by
  intro xs
  induction xs with
  | nil =>
    intro ys h
    cases ys with
    | nil => simp
    | cons y ys => simp at h
  | cons x xs ih =>
    intro ys h
    cases ys with
    | nil => simp at h
    | cons y ys =>
      simp only [List.length_cons, Nat.add_right_cancel_iff] at h
      simp only [List.zipWith_cons_cons, List.sum_cons, List.length_cons,
        ih ys h]
      push_cast
      ring

theorem sum_map_center_sq (a : ℚ) (xs : List ℚ) :
    (xs.map (fun x => (x - a) ^ 2)).sum =
      (xs.map (fun x => x ^ 2)).sum - 2 * a * xs.sum + xs.length * a ^ 2 := by
  induction xs with
  | nil => simp
  | cons x xs ih =>
    simp only [List.map_cons, List.sum_cons, List.length_cons, ih]
    push_cast
    ring

theorem length_ne_zero_cast {xs : List ℚ} (hne : xs ≠ []) :
    (xs.length : ℚ) ≠ 0 := by
  simpa using hne

theorem sxx_eq_card_mul_specVar {xs : List ℚ} (hne : xs ≠ []) :
    sxx xs = xs.length * specVar xs := by
  have hn := length_ne_zero_cast hne
  rw [sxx, specVar, sum_map_center_sq (mean xs) xs]
  simp only [mean, List.length_map]
  field_simp
  ring

theorem sxy_eq_card_mul_specCov {xs ys : List ℚ} (hne : xs ≠ [])
    (hl : xs.length = ys.length) :
    sxy xs ys = xs.length * specCov xs ys := by
  have hn := length_ne_zero_cast hne
  rw [sxy, specCov, sum_zipWith_center (mean xs) (mean ys) xs ys hl]
  simp only [mean, List.length_zipWith, ← hl, min_self]
  field_simp
  ring

theorem pyInt_nonneg_eq_floor {q : ℚ} (h : 0 ≤ q) : pyInt q = ⌊q⌋ := by
  rw [pyInt, Int.tdiv_eq_ediv (Rat.num_nonneg.mpr h) (Int.ofNat_nonneg _),
    ← Rat.floor_def]

theorem pyInt_neg_eq_ceil {q : ℚ} (h : q < 0) : pyInt q = ⌈q⌉ := by
  have h1 : q.num < 0 := by
    rw [← Rat.num_neg] at h
    exact_mod_cast h
  rw [pyInt, show q.num = -(-q.num) by ring, Int.neg_tdiv,
    Int.tdiv_eq_ediv (by omega) (Int.ofNat_nonneg _)]
  have hfl : (-q.num) / (q.den : ℤ) = ⌊-q⌋ := by
    rw [Rat.floor_def, Rat.neg_num, Rat.neg_den]
  rw [hfl, Int.floor_neg, neg_neg]

/-! ## Claim theorems -/

/-- C1: for every request with at least 3 sessions whose dates all parse
(and whose x-variance is non-zero, so that the closed form is defined),
the slope and intercept of the sklearn fit equal the spec's closed-form
single-variable OLS solution over x = whole days from min(dates) in
request order and y = running cumulative hours in request order. -/
theorem sklearn_fit_equals_closed_form_ols
    (sessions : List StudySession) (dates : List ℤ)
    (h3 : 3 ≤ sessions.length) (hp : parseDates sessions = some dates)
    (hvar : specVar (xsOf dates) ≠ 0) :
    fitOf sessions dates = specOLS (xsOf dates) (ysOf sessions) := by
  have hld : dates.length = sessions.length := parseDates_length hp
  have hlx : (xsOf dates).length = sessions.length := by
    simp [xsOf, hld]
  have hly : (ysOf sessions).length = sessions.length := by
    simp [ysOf, cumsum, cumsumFrom_length]
  have hne : xsOf dates ≠ [] := by
    intro h0
    rw [h0] at hlx
    simp at hlx
    omega
  have hn := length_ne_zero_cast hne
  have hsxx := sxx_eq_card_mul_specVar hne
  have hsxy := sxy_eq_card_mul_specCov hne (hlx.trans hly.symm)
  have hsxx0 : sxx (xsOf dates) ≠ 0 := by
    rw [hsxx]
    exact mul_ne_zero hn hvar
  rw [fitOf, sklearnFit, specOLS, if_neg hsxx0, hsxy, hsxx,
    mul_div_mul_left _ _ hn]

/-- C3: fewer than 3 sessions always yields exactly the
insufficient-data outcome, whatever the session contents (even
unparseable dates: no parsing or fitting is attempted) and whatever
remaining_hours. -/
theorem fewer_than_three_sessions_insufficient_data
    (sessions : List StudySession) (remaining_hours : ℚ)
    (h : sessions.length < 3) :
    predict_completion sessions remaining_hours = .ok .insufficientData := by
  simp [predict_completion, h]

/-- C4: with 3 or more sessions that all parse to the same calendar
date, the predictor returns the stalled outcome (the centred x-column is
zero, so the modelled sklearn fit gives slope 0), not an exception or an
infinite value. -/
theorem all_same_date_stalled
    (sessions : List StudySession) (dates : List ℤ) (remaining_hours : ℚ)
    (c : ℤ) (h3 : 3 ≤ sessions.length) (hp : parseDates sessions = some dates)
    (hsame : ∀ d ∈ dates, d = c) :
    predict_completion sessions remaining_hours = .ok .stalled := by
  have hld : dates.length = sessions.length := parseDates_length hp
  have hne : dates ≠ [] := by
    intro h0
    rw [h0] at hld
    simp at hld
    omega
  have hmin : listMin dates = c := listMin_all_eq hne hsame
  have hx : ∀ x ∈ xsOf dates, x = 0 := by
    intro x hx
    rw [xsOf, List.mem_map] at hx
    obtain ⟨d, hd, rfl⟩ := hx
    rw [hsame d hd, hmin]
    simp
  have hv : velocityOf sessions dates = 0 := by
    simp [velocityOf, fitOf, sklearnFit, sxx_all_zero hx]
  have hlen : ¬ sessions.length < 3 := by omega
  simp [predict_completion, hlen, hp, hv]

/-- C5 (amended): whenever the fitted velocity is strictly positive and
the projected ordinal `start_date + int(days_needed)` stays inside
datetime's supported range (years 1–9999), the predictor returns success
with the day offset `int(days_needed)`, where the modelled `int`
truncates toward zero — floor for non-negative days_needed, ceiling for
negative days_needed — and the predicted date is start_date plus that
offset; a negative days_needed whose result stays in range also yields a
normal success result, while a projection outside the range raises
OverflowError (see the counterexample). -/
theorem positive_velocity_truncates_days_toward_zero
    (sessions : List StudySession) (dates : List ℤ) (remaining_hours : ℚ)
    (h3 : 3 ≤ sessions.length) (hp : parseDates sessions = some dates)
    (hv : 0 < velocityOf sessions dates)
    (hrange :
      1 ≤ startOf dates + pyInt (daysNeeded sessions dates remaining_hours) ∧
      startOf dates + pyInt (daysNeeded sessions dates remaining_hours) ≤
        maxOrdinal) :
    predict_completion sessions remaining_hours =
      .ok (.success
        (formatOrdinal
          (startOf dates + pyInt (daysNeeded sessions dates remaining_hours)))
        (round2 (velocityOf sessions dates)))
    ∧ (0 ≤ daysNeeded sessions dates remaining_hours →
        pyInt (daysNeeded sessions dates remaining_hours) =
          ⌊daysNeeded sessions dates remaining_hours⌋)
    ∧ (daysNeeded sessions dates remaining_hours < 0 →
        pyInt (daysNeeded sessions dates remaining_hours) =
          ⌈daysNeeded sessions dates remaining_hours⌉) := by
  refine ⟨?_, fun h => pyInt_nonneg_eq_floor h, fun h => pyInt_neg_eq_ceil h⟩
  have hlen : ¬ sessions.length < 3 := by omega
  obtain ⟨hr1, hr2⟩ := hrange
  have hov : ¬ (startOf dates + pyInt (daysNeeded sessions dates remaining_hours) < 1 ∨
      maxOrdinal < startOf dates + pyInt (daysNeeded sessions dates remaining_hours)) := by
    push_neg
    omega
  simp [predict_completion, hlen, hp, not_le.mpr hv, hov]

/-- C8: 3 or more sessions whose dates parse, with non-negative hours
(the spec's validity condition on sessions) and a cumulative-hours
sequence that is non-increasing in request order, always yield the
stalled outcome. -/
theorem nonincreasing_cumulative_stalled
    (sessions : List StudySession) (dates : List ℤ) (remaining_hours : ℚ)
    (h3 : 3 ≤ sessions.length) (hp : parseDates sessions = some dates)
    (hpos : ∀ s ∈ sessions, 0 ≤ s.hours)
    (hni : List.Chain' (fun a b => b ≤ a) (ysOf sessions)) :
    predict_completion sessions remaining_hours = .ok .stalled := by
  have hall : ∀ y ∈ ysOf sessions,
      y = 0 + (sessions.map (fun s => s.hours)).headD 0 := by
    intro y hy
    exact cumsumFrom_all_eq _ 0
      (by
        intro x hx
        rw [List.mem_map] at hx
        obtain ⟨s, hs, rfl⟩ := hx
        exact hpos s hs)
      hni y hy
  have hne : ysOf sessions ≠ [] := by
    intro h0
    have hl : (ysOf sessions).length = sessions.length := by
      simp [ysOf, cumsum, cumsumFrom_length]
    rw [h0] at hl
    simp at hl
    omega
  have hmean := mean_all_eq hne hall
  have hzero : sxy (xsOf dates) (ysOf sessions) = 0 := by
    rw [sxy]
    exact zipWith_center_sum_zero _ _ _ _
      (fun y hy => by rw [hall y hy, hmean])
  have hv : velocityOf sessions dates = 0 :=
    slope_of_sxy_zero hzero
  have hlen : ¬ sessions.length < 3 := by omega
  simp [predict_completion, hlen, hp, hv]

/-- C9: the predictor is a deterministic pure function of the request
alone: equal session lists and equal remaining_hours give equal results
(the embedding reads no state outside its two arguments). -/
theorem predictor_deterministic
    (s₁ s₂ : List StudySession) (r₁ r₂ : ℚ)
    (hs : s₁ = s₂) (hr : r₁ = r₂) :
    predict_completion s₁ r₁ = predict_completion s₂ r₂ := by
  rw [hs, hr]

/-- C10 (amended): remaining_hours is not validated: with 3 or more
parsed sessions and any negative remaining_hours, the predictor still
runs with a target total below the current total, and a positive fitted
velocity yields a plain success outcome whenever the projected ordinal
stays inside datetime's range (a projection before year 1 raises
OverflowError instead — see the counterexample). -/
theorem negative_remaining_hours_still_succeeds
    (sessions : List StudySession) (dates : List ℤ) (remaining_hours : ℚ)
    (h3 : 3 ≤ sessions.length) (hp : parseDates sessions = some dates)
    (hneg : remaining_hours < 0) (hv : 0 < velocityOf sessions dates)
    (hrange :
      1 ≤ startOf dates + pyInt (daysNeeded sessions dates remaining_hours) ∧
      startOf dates + pyInt (daysNeeded sessions dates remaining_hours) ≤
        maxOrdinal) :
    handle sessions remaining_hours =
      .ok (.success
        (formatOrdinal
          (startOf dates + pyInt (daysNeeded sessions dates remaining_hours)))
        (round2 (velocityOf sessions dates)))
    ∧ targetTotal sessions remaining_hours < currentTotal sessions := by
  constructor
  · have hlen : ¬ sessions.length < 3 := by omega
    obtain ⟨hr1, hr2⟩ := hrange
    have hov : ¬ (startOf dates + pyInt (daysNeeded sessions dates remaining_hours) < 1 ∨
        maxOrdinal < startOf dates + pyInt (daysNeeded sessions dates remaining_hours)) := by
      push_neg
      omega
    simp [handle, predict_completion, hlen, hp, not_le.mpr hv, hov]
  · rw [targetTotal]
    linarith

/-- C7 (amended): with 3 or more sessions of which some date string
fails to parse, the ValueError from strptime escapes the handler and the
transport returns a server error (FastAPI's 500 for unhandled
exceptions), not a client validation error; the predictor aborts rather
than skipping the session. -/
theorem unparseable_date_server_error
    (sessions : List StudySession) (remaining_hours : ℚ)
    (h3 : 3 ≤ sessions.length) (hp : parseDates sessions = none) :
    handle sessions remaining_hours = .serverError ∧
    predict_completion sessions remaining_hours = .valueError := by
  have hlen : ¬ sessions.length < 3 := by omega
  constructor
  · simp [handle, predict_completion, hlen, hp]
  · simp [predict_completion, hlen, hp]

/-- C6 (amended): negative hours are not rejected: a request with 3 or
more sessions whose dates parse is never answered with a validation
error, even when some session has negative hours — the predictor runs
and its regression (computed over the negative value) decides the
response: the stalled outcome for non-positive velocity, and the success
outcome for positive velocity with an in-range projected date (an
out-of-range projection raises OverflowError → 500, still not a
validation error). -/
theorem negative_hours_not_rejected
    (sessions : List StudySession) (dates : List ℤ) (remaining_hours : ℚ)
    (h3 : 3 ≤ sessions.length) (hp : parseDates sessions = some dates)
    (hneg : ∃ s ∈ sessions, s.hours < 0) :
    handle sessions remaining_hours ≠ .clientError
    ∧ (velocityOf sessions dates ≤ 0 →
        handle sessions remaining_hours = .ok .stalled)
    ∧ (0 < velocityOf sessions dates →
        1 ≤ startOf dates + pyInt (daysNeeded sessions dates remaining_hours) →
        startOf dates + pyInt (daysNeeded sessions dates remaining_hours) ≤
          maxOrdinal →
        handle sessions remaining_hours =
          .ok (.success
            (formatOrdinal
              (startOf dates +
                pyInt (daysNeeded sessions dates remaining_hours)))
            (round2 (velocityOf sessions dates)))) := by
  have hlen : ¬ sessions.length < 3 := by omega
  refine ⟨?_, ?_, ?_⟩
  · cases hpred : predict_completion sessions remaining_hours <;>
      simp [handle, hpred]
  · intro hv
    simp [handle, predict_completion, hlen, hp, hv]
  · intro hv hr1 hr2
    have hov : ¬ (startOf dates + pyInt (daysNeeded sessions dates remaining_hours) < 1 ∨
        maxOrdinal < startOf dates + pyInt (daysNeeded sessions dates remaining_hours)) := by
      push_neg
      omega
    simp [handle, predict_completion, hlen, hp, not_le.mpr hv, hov]

/-! ## Concrete requests used in evaluations -/

/-- The spec's worked example: 2 hours on each of three consecutive
days. -/
def steadySessions : List StudySession :=
  [⟨"2024-01-01", 2⟩, ⟨"2024-01-02", 2⟩, ⟨"2024-01-03", 2⟩]

/-- Ordinals of the worked example's dates (2024-01-01 is day 738886). -/
def steadyDates : List ℤ := [738886, 738887, 738888]

/-- A request whose first session has negative hours. -/
def negHoursSessions : List StudySession :=
  [⟨"2024-01-01", -1⟩, ⟨"2024-01-02", 2⟩, ⟨"2024-01-03", 5⟩]

/-- A request with an unparseable date in the middle. -/
def badDateSessions : List StudySession :=
  [⟨"2024-01-01", 2⟩, ⟨"not-a-date", 2⟩, ⟨"2024-01-03", 2⟩]

/-- Three sessions on the same calendar date. -/
def sameDaySessions : List StudySession :=
  [⟨"2024-01-01", 1⟩, ⟨"2024-01-01", 2⟩, ⟨"2024-01-01", 3⟩]

/-- Three sessions with non-negative hours whose cumulative sum is
non-increasing (flat). -/
def flatSessions : List StudySession :=
  [⟨"2024-01-01", 1⟩, ⟨"2024-01-02", 0⟩, ⟨"2024-01-03", 0⟩]

theorem steady_parse : parseDates steadySessions = some steadyDates := by decide

theorem steady_xs : xsOf steadyDates = [0, 1, 2] := by decide

theorem steady_ys : ysOf steadySessions = [2, 4, 6] := by
  norm_num [steadySessions, ysOf, cumsum, cumsumFrom]

theorem steady_fit : fitOf steadySessions steadyDates = (2, 2) := by
  rw [fitOf, steady_xs, steady_ys]
  norm_num [sklearnFit, sxx, sxy, mean]

theorem steady_velocity : velocityOf steadySessions steadyDates = 2 := by
  rw [velocityOf, steady_fit]

theorem steady_target : targetTotal steadySessions 4 = 10 := by
  rw [targetTotal, currentTotal, steady_ys]
  norm_num [List.getLastD]

theorem steady_days : daysNeeded steadySessions steadyDates 4 = 4 := by
  rw [daysNeeded, steady_target, velocityOf, steady_fit]
  norm_num

theorem round2_two : round2 2 = 2 := by
  norm_num [round2, roundHalfEven]

/-- C2: the worked example: sessions (2024-01-01, 2 h), (2024-01-02,
2 h), (2024-01-03, 2 h) with 4 remaining hours give a success outcome
dated 2024-01-05 at velocity 2.0, through the intermediate values the
spec lists: cumulative [2,4,6], x [0,1,2], slope 2, intercept 2, target
10, days_needed 4. -/
theorem worked_example_success_2024_01_05 :
    predict_completion steadySessions 4 = .ok (.success "2024-01-05" 2)
    ∧ parseDates steadySessions = some steadyDates
    ∧ ysOf steadySessions = [2, 4, 6]
    ∧ xsOf steadyDates = [0, 1, 2]
    ∧ fitOf steadySessions steadyDates = (2, 2)
    ∧ targetTotal steadySessions 4 = 10
    ∧ daysNeeded steadySessions steadyDates 4 = 4 := by
  refine ⟨?_, steady_parse, steady_ys, steady_xs, steady_fit, steady_target,
    steady_days⟩
  have hpyint : pyInt 4 = 4 := by
    rw [pyInt_nonneg_eq_floor (by norm_num)]
    norm_num
  have hlen : ¬ steadySessions.length < 3 := by decide
  simp only [predict_completion]
  rw [if_neg hlen]
  simp only [steady_parse]
  rw [if_neg (by rw [steady_velocity]; norm_num)]
  rw [steady_days, hpyint, steady_velocity, round2_two, if_neg (by decide)]
  rw [show formatOrdinal (startOf steadyDates + 4) = "2024-01-05" from by decide]

theorem negHours_parse : parseDates negHoursSessions = some steadyDates := by
  decide

theorem negHours_ys : ysOf negHoursSessions = [-1, 1, 6] := by
  norm_num [negHoursSessions, ysOf, cumsum, cumsumFrom]

theorem negHours_fit : fitOf negHoursSessions steadyDates = (7 / 2, -3 / 2) := by
  rw [fitOf, steady_xs, negHours_ys]
  norm_num [sklearnFit, sxx, sxy, mean]

theorem negHours_velocity : velocityOf negHoursSessions steadyDates = 7 / 2 := by
  rw [velocityOf, negHours_fit]

theorem negHours_days : daysNeeded negHoursSessions steadyDates 4 = 23 / 7 := by
  rw [daysNeeded, targetTotal, currentTotal, negHours_ys, velocityOf,
    negHours_fit]
  norm_num [List.getLastD]

theorem negHours_predict :
    predict_completion negHoursSessions 4 = .ok (.success "2024-01-04" (7 / 2)) := by
  have hpyint : pyInt (23 / 7) = 3 := by
    rw [pyInt_nonneg_eq_floor (by norm_num)]
    norm_num
  have hrnd : round2 (7 / 2) = 7 / 2 := by
    norm_num [round2, roundHalfEven]
  have hlen : ¬ negHoursSessions.length < 3 := by decide
  simp only [predict_completion]
  rw [if_neg hlen]
  simp only [negHours_parse]
  rw [if_neg (by rw [negHours_velocity]; norm_num)]
  rw [negHours_days, hpyint, negHours_velocity, hrnd, if_neg (by decide)]
  rw [show formatOrdinal (startOf steadyDates + 3) = "2024-01-04" from by decide]

/-- C6 counterexample: a request whose first session has hours −1 is
not rejected: the handler returns an ordinary 200 success outcome whose
velocity 3.5 comes from a regression computed over the negative value,
so the claim "rejected as a validation error before the predictor runs"
is false on the code. -/
theorem negative_hours_reach_predictor :
    (⟨"2024-01-01", -1⟩ : StudySession) ∈ negHoursSessions
    ∧ (-1 : ℚ) < 0
    ∧ handle negHoursSessions 4 = .ok (.success "2024-01-04" (7 / 2))
    ∧ handle negHoursSessions 4 ≠ .clientError := by
  refine ⟨by simp [negHoursSessions], by norm_num, ?_, ?_⟩ <;>
    simp [handle, negHours_predict]

/-- C7 counterexample: a request with 3 sessions whose middle date
"not-a-date" fails to parse makes the handler produce a server error
(the uncaught ValueError becomes FastAPI's 500), not the client-error
validation response the claim asserts. -/
theorem bad_date_server_error_not_client_error :
    handle badDateSessions 4 = .serverError
    ∧ Response.serverError ≠ Response.clientError := by
  constructor
  · decide
  · decide

theorem steady_days_billion :
    daysNeeded steadySessions steadyDates 1000000000 = 500000002 := by
  rw [daysNeeded, targetTotal, currentTotal, steady_ys, velocityOf, steady_fit]
  norm_num [List.getLastD]

/-- C5 counterexample: at the worked example's sessions with
remaining_hours 10⁹ the fitted velocity is 2 > 0 and days_needed
truncates to the integer 500000002, but the projected date lies beyond
year 9999, so the program raises OverflowError (HTTP 500) instead of
returning the predicted date the claim asserts. -/
theorem huge_remaining_hours_overflow :
    0 < velocityOf steadySessions steadyDates
    ∧ predict_completion steadySessions 1000000000 = .overflowError
    ∧ handle steadySessions 1000000000 = .serverError := by
  have hv : 0 < velocityOf steadySessions steadyDates := by
    rw [steady_velocity]
    norm_num
  have hpy : pyInt 500000002 = 500000002 := by
    rw [pyInt_nonneg_eq_floor (by norm_num)]
    norm_num
  have hpred : predict_completion steadySessions 1000000000 = .overflowError := by
    have hlen : ¬ steadySessions.length < 3 := by decide
    simp only [predict_completion]
    rw [if_neg hlen]
    simp only [steady_parse]
    rw [if_neg (by rw [steady_velocity]; norm_num)]
    rw [steady_days_billion, hpy, if_pos (by decide)]
  exact ⟨hv, hpred, by simp [handle, hpred]⟩

theorem steady_days_negmillion :
    daysNeeded steadySessions steadyDates (-2000000) = -999998 := by
  rw [daysNeeded, targetTotal, currentTotal, steady_ys, velocityOf, steady_fit]
  norm_num [List.getLastD]

/-- C10 counterexample: at the worked example's sessions with
remaining_hours −2000000 (negative, velocity 2 > 0, inside the claim's
scope) the projected date falls before year 1, so the program raises
OverflowError (HTTP 500) rather than returning the Success outcome the
claim asserts. -/
theorem negative_remaining_hours_overflow :
    (-2000000 : ℚ) < 0
    ∧ 0 < velocityOf steadySessions steadyDates
    ∧ predict_completion steadySessions (-2000000) = .overflowError
    ∧ handle steadySessions (-2000000) = .serverError := by
  have hv : 0 < velocityOf steadySessions steadyDates := by
    rw [steady_velocity]
    norm_num
  have hpy : pyInt (-999998) = -999998 := by
    rw [pyInt_neg_eq_ceil (by norm_num)]
    rw [show ((-999998 : ℚ)) = ((-999998 : ℤ) : ℚ) from by norm_num]
    exact Int.ceil_intCast _
  have hpred : predict_completion steadySessions (-2000000) = .overflowError := by
    have hlen : ¬ steadySessions.length < 3 := by decide
    simp only [predict_completion]
    rw [if_neg hlen]
    simp only [steady_parse]
    rw [if_neg (by rw [steady_velocity]; norm_num)]
    rw [steady_days_negmillion, hpy, if_pos (by decide)]
  exact ⟨by norm_num, hv, hpred, by simp [handle, hpred]⟩

/-! ## Witnesses -/

/-- Witness for C1 at the worked example: variance 2/3 ≠ 0 and the fit
(2, 2) equals the closed form. -/
theorem sklearn_fit_equals_closed_form_ols_witness :
    3 ≤ steadySessions.length
    ∧ parseDates steadySessions = some steadyDates
    ∧ specVar (xsOf steadyDates) ≠ 0
    ∧ fitOf steadySessions steadyDates =
        specOLS (xsOf steadyDates) (ysOf steadySessions) := by
  have hvar : specVar (xsOf steadyDates) ≠ 0 := by
    rw [steady_xs]
    norm_num [specVar, mean]
  exact ⟨by decide, steady_parse, hvar,
    sklearn_fit_equals_closed_form_ols _ _ (by decide) steady_parse hvar⟩

/-- Witness for C3: a single session with garbage contents. -/
theorem fewer_than_three_sessions_insufficient_data_witness :
    ([⟨"garbage", -5⟩] : List StudySession).length < 3
    ∧ predict_completion [⟨"garbage", -5⟩] (-1) = .ok .insufficientData :=
  ⟨by decide, fewer_than_three_sessions_insufficient_data _ _ (by decide)⟩

/-- Witness for C4: three sessions all on 2024-01-01. -/
theorem all_same_date_stalled_witness :
    3 ≤ sameDaySessions.length
    ∧ parseDates sameDaySessions = some [738886, 738886, 738886]
    ∧ (∀ d ∈ ([738886, 738886, 738886] : List ℤ), d = 738886)
    ∧ predict_completion sameDaySessions 4 = .ok .stalled :=
  ⟨by decide, by decide, by decide,
    all_same_date_stalled sameDaySessions [738886, 738886, 738886] 4 738886
      (by decide) (by decide) (by decide)⟩

/-- Witness for C5 at the worked example: velocity 2 > 0 and
days_needed 4 is truncated to the integer 4. -/
theorem positive_velocity_truncates_days_toward_zero_witness :
    3 ≤ steadySessions.length
    ∧ parseDates steadySessions = some steadyDates
    ∧ 0 < velocityOf steadySessions steadyDates
    ∧ (1 ≤ startOf steadyDates + pyInt (daysNeeded steadySessions steadyDates 4) ∧
        startOf steadyDates + pyInt (daysNeeded steadySessions steadyDates 4) ≤
          maxOrdinal)
    ∧ (predict_completion steadySessions 4 =
        .ok (.success
          (formatOrdinal
            (startOf steadyDates + pyInt (daysNeeded steadySessions steadyDates 4)))
          (round2 (velocityOf steadySessions steadyDates)))
      ∧ (0 ≤ daysNeeded steadySessions steadyDates 4 →
          pyInt (daysNeeded steadySessions steadyDates 4) =
            ⌊daysNeeded steadySessions steadyDates 4⌋)
      ∧ (daysNeeded steadySessions steadyDates 4 < 0 →
          pyInt (daysNeeded steadySessions steadyDates 4) =
            ⌈daysNeeded steadySessions steadyDates 4⌉)) := by
  have hv : 0 < velocityOf steadySessions steadyDates := by
    rw [steady_velocity]
    norm_num
  have hpy : pyInt 4 = 4 := by
    rw [pyInt_nonneg_eq_floor (by norm_num)]
    norm_num
  have hrange :
      1 ≤ startOf steadyDates + pyInt (daysNeeded steadySessions steadyDates 4) ∧
      startOf steadyDates + pyInt (daysNeeded steadySessions steadyDates 4) ≤
        maxOrdinal := by
    rw [steady_days, hpy]
    exact ⟨by decide, by decide⟩
  exact ⟨by decide, steady_parse, hv, hrange,
    positive_velocity_truncates_days_toward_zero _ _ 4 (by decide) steady_parse
      hv hrange⟩

/-- Witness for C8: hours [1, 0, 0] give the flat cumulative sequence
[1, 1, 1] and the stalled outcome. -/
theorem nonincreasing_cumulative_stalled_witness :
    3 ≤ flatSessions.length
    ∧ parseDates flatSessions = some steadyDates
    ∧ (∀ s ∈ flatSessions, 0 ≤ s.hours)
    ∧ List.Chain' (fun a b => b ≤ a) (ysOf flatSessions)
    ∧ predict_completion flatSessions 4 = .ok .stalled := by
  have hflat : ysOf flatSessions = [1, 1, 1] := by
    norm_num [flatSessions, ysOf, cumsum, cumsumFrom]
  have hpos : ∀ s ∈ flatSessions, 0 ≤ s.hours := by
    intro s hs
    simp only [flatSessions, List.mem_cons, List.not_mem_nil, or_false] at hs
    rcases hs with rfl | rfl | rfl <;> norm_num
  have hni : List.Chain' (fun a b => b ≤ a) (ysOf flatSessions) := by
    rw [hflat]
    simp [List.chain'_cons]
  exact ⟨by decide, by decide, hpos, hni,
    nonincreasing_cumulative_stalled flatSessions steadyDates 4 (by decide)
      (by decide) hpos hni⟩

/-- Witness for C9 at the worked example. -/
theorem predictor_deterministic_witness :
    steadySessions = steadySessions
    ∧ (4 : ℚ) = 4
    ∧ predict_completion steadySessions 4 = predict_completion steadySessions 4 :=
  ⟨rfl, rfl, predictor_deterministic _ _ _ _ rfl rfl⟩

/-- Witness for C10: the worked example with remaining_hours −3 still
succeeds (days_needed 1/2 truncates to 0, date in range), with the
target total below the current total. -/
theorem negative_remaining_hours_still_succeeds_witness :
    3 ≤ steadySessions.length
    ∧ parseDates steadySessions = some steadyDates
    ∧ (-3 : ℚ) < 0
    ∧ 0 < velocityOf steadySessions steadyDates
    ∧ (1 ≤ startOf steadyDates + pyInt (daysNeeded steadySessions steadyDates (-3)) ∧
        startOf steadyDates + pyInt (daysNeeded steadySessions steadyDates (-3)) ≤
          maxOrdinal)
    ∧ (handle steadySessions (-3) =
        .ok (.success
          (formatOrdinal
            (startOf steadyDates +
              pyInt (daysNeeded steadySessions steadyDates (-3))))
          (round2 (velocityOf steadySessions steadyDates)))
      ∧ targetTotal steadySessions (-3) < currentTotal steadySessions) := by
  have hv : 0 < velocityOf steadySessions steadyDates := by
    rw [steady_velocity]
    norm_num
  have hdays : daysNeeded steadySessions steadyDates (-3) = 1 / 2 := by
    rw [daysNeeded, targetTotal, currentTotal, steady_ys, velocityOf,
      steady_fit]
    norm_num [List.getLastD]
  have hpy : pyInt (1 / 2) = 0 := by
    rw [pyInt_nonneg_eq_floor (by norm_num)]
    norm_num
  have hrange :
      1 ≤ startOf steadyDates + pyInt (daysNeeded steadySessions steadyDates (-3)) ∧
      startOf steadyDates + pyInt (daysNeeded steadySessions steadyDates (-3)) ≤
        maxOrdinal := by
    rw [hdays, hpy]
    exact ⟨by decide, by decide⟩
  exact ⟨by decide, steady_parse, by norm_num, hv, hrange,
    negative_remaining_hours_still_succeeds _ _ _ (by decide) steady_parse
      (by norm_num) hv hrange⟩

/-- Witness for the amended C7: the bad-date request of the
counterexample. -/
theorem unparseable_date_server_error_witness :
    3 ≤ badDateSessions.length
    ∧ parseDates badDateSessions = none
    ∧ (handle badDateSessions 4 = .serverError
      ∧ predict_completion badDateSessions 4 = .valueError) :=
  ⟨by decide, by decide,
    unparseable_date_server_error _ 4 (by decide) (by decide)⟩

/-- Witness for the amended C6: the negative-hours request of the
counterexample. -/
theorem negative_hours_not_rejected_witness :
    3 ≤ negHoursSessions.length
    ∧ parseDates negHoursSessions = some steadyDates
    ∧ (∃ s ∈ negHoursSessions, s.hours < 0)
    ∧ (handle negHoursSessions 4 ≠ .clientError
      ∧ (velocityOf negHoursSessions steadyDates ≤ 0 →
          handle negHoursSessions 4 = .ok .stalled)
      ∧ (0 < velocityOf negHoursSessions steadyDates →
          1 ≤ startOf steadyDates +
            pyInt (daysNeeded negHoursSessions steadyDates 4) →
          startOf steadyDates +
            pyInt (daysNeeded negHoursSessions steadyDates 4) ≤ maxOrdinal →
          handle negHoursSessions 4 =
            .ok (.success
              (formatOrdinal
                (startOf steadyDates +
                  pyInt (daysNeeded negHoursSessions steadyDates 4)))
              (round2 (velocityOf negHoursSessions steadyDates))))) := by
  have hneg : ∃ s ∈ negHoursSessions, s.hours < 0 :=
    ⟨⟨"2024-01-01", -1⟩, by simp [negHoursSessions], by norm_num⟩
  exact ⟨by decide, negHours_parse, hneg,
    negative_hours_not_rejected _ _ 4 (by decide) negHours_parse hneg⟩
